import Mathlib

/-!
Shallow embedding of the core of `src/Ant.py`: vapor-liquid equilibrium of an
ideal heptane-octane mixture via Raoult's law and the Antoine correlation.

Python floats are modelled as real numbers.  The third-party root-finder
`scipy.optimize.fsolve` (called at line 94 of `src/Ant.py`) is not code of
this repository; it is modelled by its contract as an ideal root-finder: it
returns the root of the residual in the physical bracket `[0, 200]` °C, which
exists (intermediate value theorem) and is unique (the residual is strictly
increasing there) for every liquid fraction in `[0, 1]`.
-/

open Real Set

/-- Antoine correlation constants for one species: one `{A, B, C}` record of
the `antoine_constants` dictionary, `src/Ant.py` lines 77-80. -/
structure AntoineConstants where
  A : ℝ
  B : ℝ
  C : ℝ

/-- `antoine_constants["heptane"]` (src/Ant.py line 78). -/
def heptane : AntoineConstants := ⟨6.893, 1260, 216⟩

/-- `antoine_constants["octane"]` (src/Ant.py line 79). -/
def octane : AntoineConstants := ⟨6.9094, 1351, 217⟩

/-- `antoine_eq` (src/Ant.py lines 82-83): `10**(A - B / (C + T))`, with `**`
on reals modelled by `Real.rpow`.  Lean's total division makes this
definition defined even at `C + T = 0`; the source's failure path there is
modelled separately by `antoine_eq_checked`. -/
noncomputable def antoine_eq (T A B C : ℝ) : ℝ := (10 : ℝ) ^ (A - B / (C + T))

/-- `antoine_eq` with the Python division semantics of line 83 made
explicit: at `C + T = 0` the expression `B / (C + T)` raises
`ZeroDivisionError` in the source, modelled as `none`; everywhere else the
call returns `antoine_eq T A B C`. -/
noncomputable def antoine_eq_checked (T A B C : ℝ) : Option ℝ :=
  letI := Classical.dec (C + T = 0)
  if C + T = 0 then none else some ((10 : ℝ) ^ (A - B / (C + T)))

/-- `P_total = 760` mmHg (src/Ant.py line 85). -/
def P_total : ℝ := 760

/-- The residual `func` nested inside `bubble_point_temp` (src/Ant.py lines
88-92), with `x_octane = 1 - x_heptane` (line 91) inlined:
`x_heptane * P_heptane + x_octane * P_octane - P_total`. -/
noncomputable def func (x_heptane T : ℝ) : ℝ :=
  x_heptane * antoine_eq T heptane.A heptane.B heptane.C
    + (1 - x_heptane) * antoine_eq T octane.A octane.B octane.C - P_total

/-- `bubble_point_temp` (src/Ant.py lines 87-94).  The call
`fsolve(func, 100)[0]` to the external library root-finder is modelled by its
contract: it returns the root of `func` in the physical bracket `[0, 200]`
(unique there when `0 ≤ x ≤ 1`); outside that modelling domain it falls back
to the initial guess `T_guess = 100` of line 93. -/
noncomputable def bubble_point_temp (x_heptane : ℝ) : ℝ :=
  letI := Classical.dec (∃ T ∈ Set.Icc (0 : ℝ) 200, func x_heptane T = 0)
  if h : ∃ T ∈ Set.Icc (0 : ℝ) 200, func x_heptane T = 0 then h.choose else 100

/-- `x_vals = np.linspace(0, 1, 21)` (src/Ant.py line 96): the 21 evenly
spaced samples `i / 20` for `i = 0, ..., 20`. -/
noncomputable def x_vals : List ℝ := (List.range 21).map (fun (i : ℕ) => (i : ℝ) / 20)

/-- The vapor mole fraction derived in the sweep body (src/Ant.py lines
103-104): `y = (x * P_heptane) / P_total` with `P_heptane` recomputed by
`antoine_eq` at the solved temperature. -/
noncomputable def vapor_y (x : ℝ) : ℝ :=
  x * antoine_eq (bubble_point_temp x) heptane.A heptane.B heptane.C / P_total

/-- The sweep loop (src/Ant.py lines 101-107) with the solver call of line
102 abstracted as a parameter `solveT`: for every sample `x` it appends the
row `(x, y, T)` unconditionally, recomputing the heptane saturation pressure
at `solveT x` exactly as lines 103-104 do. -/
noncomputable def sweepRows (solveT : ℝ → ℝ) : List (ℝ × ℝ × ℝ) :=
  x_vals.map fun x =>
    (x, x * antoine_eq (solveT x) heptane.A heptane.B heptane.C / P_total, solveT x)

/-- The parallel sequences `x_vals, y_vals, T_vals` accumulated by the sweep
loop (src/Ant.py lines 96-107), packaged as rows `(x, y, T)`: the loop with
its actual solver `bubble_point_temp`. -/
noncomputable def results : List (ℝ × ℝ × ℝ) := sweepRows bubble_point_temp

/-- The sweep loop generalized over its remaining inputs: the first species'
correlation record, the total pressure, the sample sequence and the solver.
This is the configuration surface of section 6 of the design: the loop body
reads nothing else. -/
noncomputable def sweepGen (hep : AntoineConstants) (P : ℝ) (samples : List ℝ)
    (solveT : ℝ → ℝ) : List (ℝ × ℝ × ℝ) :=
  samples.map fun x => (x, x * antoine_eq (solveT x) hep.A hep.B hep.C / P, solveT x)

/-- The base-10 power function on reals is continuous. -/
lemma continuous_ten_rpow : Continuous fun z : ℝ => (10 : ℝ) ^ z := by
  have h : (fun z : ℝ => (10 : ℝ) ^ z) = fun z : ℝ => Real.exp (Real.log 10 * z) := by
    funext z
    rw [Real.rpow_def_of_pos (by norm_num)]
  rw [h]
  exact Real.continuous_exp.comp (continuous_const.mul continuous_id)

/-- The Antoine saturation pressure is strictly positive for all inputs. -/
lemma antoine_eq_pos (T A B C : ℝ) : 0 < antoine_eq T A B C :=
  Real.rpow_pos_of_pos (by norm_num) _

/-- Monotonicity of base-10 powers in the exponent. -/
lemma ten_rpow_lt_ten_rpow {a b : ℝ} (h : a < b) : (10 : ℝ) ^ a < (10 : ℝ) ^ b :=
  (Real.rpow_lt_rpow_left_iff (by norm_num)).2 h

/-- `10 ^ (2 : ℝ) = 100` as reals. -/
lemma ten_rpow_two : (10 : ℝ) ^ (2 : ℝ) = 100 := by
  rw [show (2 : ℝ) = ((2 : ℕ) : ℝ) by norm_num, Real.rpow_natCast]
  norm_num

/-- `10 ^ (3 : ℝ) = 1000` as reals. -/
lemma ten_rpow_three : (10 : ℝ) ^ (3 : ℝ) = 1000 := by
  rw [show (3 : ℝ) = ((3 : ℕ) : ℝ) by norm_num, Real.rpow_natCast]
  norm_num

/-- For a positive Antoine `C`, the saturation pressure is continuous on the
physical bracket `[0, 200]`. -/
lemma continuousOn_antoine_eq (A B C : ℝ) (hC : 0 < C) :
    ContinuousOn (fun T => antoine_eq T A B C) (Set.Icc (0 : ℝ) 200) := by
  have hexp : ContinuousOn (fun T : ℝ => A - B / (C + T)) (Set.Icc (0 : ℝ) 200) := by
    refine continuousOn_const.sub (ContinuousOn.div continuousOn_const
      ((continuous_const.add continuous_id).continuousOn) ?_)
    intro T hT
    have h0 : 0 ≤ T := hT.1
    positivity
  exact continuous_ten_rpow.comp_continuousOn hexp

/-- The residual is continuous on the bracket `[0, 200]`. -/
lemma continuousOn_func (x : ℝ) : ContinuousOn (func x) (Set.Icc (0 : ℝ) 200) := by
  have hh := continuousOn_antoine_eq heptane.A heptane.B heptane.C (by norm_num [heptane])
  have ho := continuousOn_antoine_eq octane.A octane.B octane.C (by norm_num [octane])
  exact ((continuousOn_const.mul hh).add (continuousOn_const.mul ho)).sub continuousOn_const

/-- At `T = 0` °C the residual is negative for every liquid fraction in
`[0, 1]`: both saturation pressures are below `100` mmHg there. -/
lemma func_neg_at_zero {x : ℝ} (h0 : 0 ≤ x) (h1 : x ≤ 1) : func x 0 < 0 := by
  have hhep : antoine_eq 0 heptane.A heptane.B heptane.C < 100 := by
    have hexp : heptane.A - heptane.B / (heptane.C + 0) < 2 := by norm_num [heptane]
    calc antoine_eq 0 heptane.A heptane.B heptane.C
        < (10 : ℝ) ^ (2 : ℝ) := ten_rpow_lt_ten_rpow hexp
      _ = 100 := ten_rpow_two
  have hoct : antoine_eq 0 octane.A octane.B octane.C < 100 := by
    have hexp : octane.A - octane.B / (octane.C + 0) < 2 := by norm_num [octane]
    calc antoine_eq 0 octane.A octane.B octane.C
        < (10 : ℝ) ^ (2 : ℝ) := ten_rpow_lt_ten_rpow hexp
      _ = 100 := ten_rpow_two
  have hx1 : 0 ≤ 1 - x := by linarith
  have t1 : x * antoine_eq 0 heptane.A heptane.B heptane.C ≤ x * 100 :=
    mul_le_mul_of_nonneg_left hhep.le h0
  have t2 : (1 - x) * antoine_eq 0 octane.A octane.B octane.C ≤ (1 - x) * 100 :=
    mul_le_mul_of_nonneg_left hoct.le hx1
  have : func x 0 ≤ x * 100 + (1 - x) * 100 - P_total := by
    simp only [func]
    linarith
  calc func x 0 ≤ x * 100 + (1 - x) * 100 - P_total := this
    _ = 100 - 760 := by simp [P_total]; ring
    _ < 0 := by norm_num

/-- At `T = 200` °C the residual is positive for every liquid fraction in
`[0, 1]`: both saturation pressures exceed `1000` mmHg there. -/
lemma func_pos_at_two_hundred {x : ℝ} (h0 : 0 ≤ x) (h1 : x ≤ 1) : 0 < func x 200 := by
  have hhep : 1000 < antoine_eq 200 heptane.A heptane.B heptane.C := by
    have hexp : (3 : ℝ) < heptane.A - heptane.B / (heptane.C + 200) := by norm_num [heptane]
    calc (1000 : ℝ) = (10 : ℝ) ^ (3 : ℝ) := ten_rpow_three.symm
      _ < antoine_eq 200 heptane.A heptane.B heptane.C := ten_rpow_lt_ten_rpow hexp
  have hoct : 1000 < antoine_eq 200 octane.A octane.B octane.C := by
    have hexp : (3 : ℝ) < octane.A - octane.B / (octane.C + 200) := by norm_num [octane]
    calc (1000 : ℝ) = (10 : ℝ) ^ (3 : ℝ) := ten_rpow_three.symm
      _ < antoine_eq 200 octane.A octane.B octane.C := ten_rpow_lt_ten_rpow hexp
  have hx1 : 0 ≤ 1 - x := by linarith
  have t1 : x * 1000 ≤ x * antoine_eq 200 heptane.A heptane.B heptane.C :=
    mul_le_mul_of_nonneg_left hhep.le h0
  have t2 : (1 - x) * 1000 ≤ (1 - x) * antoine_eq 200 octane.A octane.B octane.C :=
    mul_le_mul_of_nonneg_left hoct.le hx1
  have : x * 1000 + (1 - x) * 1000 - P_total ≤ func x 200 := by
    simp only [func]
    linarith
  have h240 : (0 : ℝ) < x * 1000 + (1 - x) * 1000 - P_total := by
    simp only [P_total]
    nlinarith
  linarith

/-- The residual has a root in the bracket `[0, 200]` for every liquid
fraction in `[0, 1]` (intermediate value theorem). -/
lemma func_has_root {x : ℝ} (h0 : 0 ≤ x) (h1 : x ≤ 1) :
    ∃ T ∈ Set.Icc (0 : ℝ) 200, func x T = 0 := by
  have hsub := intermediate_value_Icc (by norm_num : (0 : ℝ) ≤ 200) (continuousOn_func x)
  have hmem : (0 : ℝ) ∈ Set.Icc (func x 0) (func x 200) :=
    ⟨(func_neg_at_zero h0 h1).le, (func_pos_at_two_hundred h0 h1).le⟩
  obtain ⟨T, hT, hroot⟩ := hsub hmem
  exact ⟨T, hT, hroot⟩

/-- Specification of the modelled solver: for a liquid fraction in `[0, 1]`
the returned temperature lies in `[0, 200]` and zeroes the residual. -/
lemma bubble_point_temp_spec {x : ℝ} (h0 : 0 ≤ x) (h1 : x ≤ 1) :
    bubble_point_temp x ∈ Set.Icc (0 : ℝ) 200 ∧ func x (bubble_point_temp x) = 0 := by
  have h := func_has_root h0 h1
  rw [bubble_point_temp, dif_pos h]
  exact h.choose_spec

/-- `10 ^ 2.88 < 760` (i.e. `2.88 < log10 760`), by raising both sides to the
1000th power: `10 ^ 2880 < 760 ^ 1000`. -/
lemma ten_rpow_288_lt : (10 : ℝ) ^ (2.88 : ℝ) < 760 := by
  refine lt_of_pow_lt_pow_left₀ 1000 (by norm_num) ?_
  have h : ((10 : ℝ) ^ (2.88 : ℝ)) ^ (1000 : ℕ) = (10 : ℝ) ^ (2880 : ℕ) := by
    rw [← Real.rpow_natCast ((10 : ℝ) ^ (2.88 : ℝ)) 1000,
      ← Real.rpow_mul (by norm_num : (0 : ℝ) ≤ 10),
      show (2.88 : ℝ) * (1000 : ℕ) = ((2880 : ℕ) : ℝ) by norm_num,
      Real.rpow_natCast]
  rw [h]
  norm_num

/-- `760 < 10 ^ 2.881` (i.e. `log10 760 < 2.881`), by raising both sides to
the 1000th power: `760 ^ 1000 < 10 ^ 2881`. -/
lemma lt_ten_rpow_2881 : (760 : ℝ) < (10 : ℝ) ^ (2.881 : ℝ) := by
  refine lt_of_pow_lt_pow_left₀ 1000 (Real.rpow_pos_of_pos (by norm_num) _).le ?_
  have h : ((10 : ℝ) ^ (2.881 : ℝ)) ^ (1000 : ℕ) = (10 : ℝ) ^ (2881 : ℕ) := by
    rw [← Real.rpow_natCast ((10 : ℝ) ^ (2.881 : ℝ)) 1000,
      ← Real.rpow_mul (by norm_num : (0 : ℝ) ≤ 10),
      show (2.881 : ℝ) * (1000 : ℕ) = ((2881 : ℕ) : ℝ) by norm_num,
      Real.rpow_natCast]
  rw [h]
  norm_num

/-- If the Antoine exponent at `T` is below `2.88`, the saturation pressure is
below `760` mmHg. -/
lemma antoine_eq_lt_760 {T A B C : ℝ} (h : A - B / (C + T) < 2.88) :
    antoine_eq T A B C < 760 :=
  lt_trans (ten_rpow_lt_ten_rpow h) ten_rpow_288_lt

/-- If the Antoine exponent at `T` is above `2.881`, the saturation pressure
exceeds `760` mmHg. -/
lemma lt_antoine_eq_760 {T A B C : ℝ} (h : (2.881 : ℝ) < A - B / (C + T)) :
    760 < antoine_eq T A B C :=
  lt_trans lt_ten_rpow_2881 (ten_rpow_lt_ten_rpow h)

/-- With `0 < B` and `0 < C`, the Antoine saturation pressure is strictly
increasing in temperature on `[0, 200]`. -/
lemma antoine_eq_strictMonoOn (A B C : ℝ) (hB : 0 < B) (hC : 0 < C) :
    StrictMonoOn (fun T => antoine_eq T A B C) (Set.Icc (0 : ℝ) 200) := by
  intro a ha b hb hab
  have hCa : 0 < C + a := by have := ha.1; linarith
  have hCb : 0 < C + b := by have := hb.1; linarith
  have hdiv : B / (C + b) < B / (C + a) :=
    div_lt_div_of_pos_left hB hCa (by linarith)
  exact ten_rpow_lt_ten_rpow (by linarith)

/-- On `[0, 200]` the octane saturation pressure is strictly below the
heptane one: heptane is the more volatile species under these constants. -/
lemma octane_lt_heptane {T : ℝ} (hT : T ∈ Set.Icc (0 : ℝ) 200) :
    antoine_eq T octane.A octane.B octane.C
      < antoine_eq T heptane.A heptane.B heptane.C := by
  obtain ⟨h0, h200⟩ := hT
  have h1 : (0 : ℝ) < 216 + T := by linarith
  have h2 : (0 : ℝ) < 217 + T := by linarith
  have key : (1260 + 0.0164 * (216 + T)) * (217 + T) < 1351 * (216 + T) := by
    nlinarith [mul_nonneg (sub_nonneg.2 h200) h0]
  have hfrac : (1260 + 0.0164 * (216 + T)) / (216 + T) < 1351 / (217 + T) :=
    (div_lt_div_iff₀ h1 h2).2 key
  have hsplit : (1260 + 0.0164 * (216 + T)) / (216 + T)
      = 1260 / (216 + T) + 0.0164 := by
    field_simp
  have hexp : octane.A - octane.B / (octane.C + T)
      < heptane.A - heptane.B / (heptane.C + T) := by
    simp only [heptane, octane]
    rw [hsplit] at hfrac
    linarith
  exact ten_rpow_lt_ten_rpow hexp

/-- The residual is strictly increasing in temperature on `[0, 200]` for any
liquid fraction in `[0, 1]`. -/
lemma func_strictMonoOn {x : ℝ} (h0 : 0 ≤ x) (h1 : x ≤ 1) :
    StrictMonoOn (func x) (Set.Icc (0 : ℝ) 200) := by
  intro a ha b hb hab
  have hhep := antoine_eq_strictMonoOn heptane.A heptane.B heptane.C
    (by norm_num [heptane]) (by norm_num [heptane]) ha hb hab
  have hoct := antoine_eq_strictMonoOn octane.A octane.B octane.C
    (by norm_num [octane]) (by norm_num [octane]) ha hb hab
  simp only at hhep hoct
  rcases lt_or_eq_of_le h0 with hx | hx
  · have t1 : x * antoine_eq a heptane.A heptane.B heptane.C
        < x * antoine_eq b heptane.A heptane.B heptane.C :=
      mul_lt_mul_of_pos_left hhep hx
    have t2 : (1 - x) * antoine_eq a octane.A octane.B octane.C
        ≤ (1 - x) * antoine_eq b octane.A octane.B octane.C :=
      mul_le_mul_of_nonneg_left hoct.le (by linarith)
    simp only [func]
    linarith
  · have t2 : (1 : ℝ) * antoine_eq a octane.A octane.B octane.C
        < 1 * antoine_eq b octane.A octane.B octane.C :=
      mul_lt_mul_of_pos_left hoct one_pos
    simp only [func, ← hx]
    linarith

/-- At `x_heptane = 0` the residual reduces to the octane pressure balance. -/
lemma func_at_x_zero (T : ℝ) :
    func 0 T = antoine_eq T octane.A octane.B octane.C - P_total := by
  simp [func]

/-- At `x_heptane = 1` the residual reduces to the heptane pressure balance. -/
lemma func_at_x_one (T : ℝ) :
    func 1 T = antoine_eq T heptane.A heptane.B heptane.C - P_total := by
  simp [func]

/-- The octane strict monotonicity instance used to locate pure-octane
boiling. -/
lemma octane_strictMonoOn :
    StrictMonoOn (fun T => antoine_eq T octane.A octane.B octane.C)
      (Set.Icc (0 : ℝ) 200) :=
  antoine_eq_strictMonoOn octane.A octane.B octane.C
    (by norm_num [octane]) (by norm_num [octane])

/-- The heptane strict monotonicity instance used to locate pure-heptane
boiling. -/
lemma heptane_strictMonoOn :
    StrictMonoOn (fun T => antoine_eq T heptane.A heptane.B heptane.C)
      (Set.Icc (0 : ℝ) 200) :=
  antoine_eq_strictMonoOn heptane.A heptane.B heptane.C
    (by norm_num [heptane]) (by norm_num [heptane])

/-- The solved pure-octane boiling point (`x_heptane = 0`) lies strictly
between `118.25` and `118.4` °C. -/
lemma bubble_point_temp_zero_bounds :
    118.25 < bubble_point_temp 0 ∧ bubble_point_temp 0 < 118.4 := by
  obtain ⟨hmem, hroot⟩ := bubble_point_temp_spec (le_refl (0 : ℝ)) (by norm_num)
  rw [func_at_x_zero] at hroot
  have hval : antoine_eq (bubble_point_temp 0) octane.A octane.B octane.C = 760 := by
    simp only [P_total] at hroot
    linarith
  have hlo : antoine_eq (118.25 : ℝ) octane.A octane.B octane.C < 760 := by
    apply antoine_eq_lt_760
    norm_num [octane]
  have hhi : (760 : ℝ) < antoine_eq (118.4 : ℝ) octane.A octane.B octane.C := by
    apply lt_antoine_eq_760
    norm_num [octane]
  have hlomem : (118.25 : ℝ) ∈ Set.Icc (0 : ℝ) 200 := by norm_num
  have hhimem : (118.4 : ℝ) ∈ Set.Icc (0 : ℝ) 200 := by norm_num
  constructor
  · exact (octane_strictMonoOn.lt_iff_lt hlomem hmem).1 (by rw [hval] at *; simpa using lt_of_lt_of_le hlo (le_of_eq hval.symm))
  · exact (octane_strictMonoOn.lt_iff_lt hmem hhimem).1 (by simpa [hval] using hhi)

/-- The solved pure-heptane boiling point (`x_heptane = 1`) lies strictly
between `97.95` and `98.1` °C. -/
lemma bubble_point_temp_one_bounds :
    97.95 < bubble_point_temp 1 ∧ bubble_point_temp 1 < 98.1 := by
  obtain ⟨hmem, hroot⟩ := bubble_point_temp_spec (by norm_num : (0:ℝ) ≤ 1) (le_refl 1)
  rw [func_at_x_one] at hroot
  have hval : antoine_eq (bubble_point_temp 1) heptane.A heptane.B heptane.C = 760 := by
    simp only [P_total] at hroot
    linarith
  have hlo : antoine_eq (97.95 : ℝ) heptane.A heptane.B heptane.C < 760 := by
    apply antoine_eq_lt_760
    norm_num [heptane]
  have hhi : (760 : ℝ) < antoine_eq (98.1 : ℝ) heptane.A heptane.B heptane.C := by
    apply lt_antoine_eq_760
    norm_num [heptane]
  have hlomem : (97.95 : ℝ) ∈ Set.Icc (0 : ℝ) 200 := by norm_num
  have hhimem : (98.1 : ℝ) ∈ Set.Icc (0 : ℝ) 200 := by norm_num
  constructor
  · exact (heptane_strictMonoOn.lt_iff_lt hlomem hmem).1 (by simpa [hval] using hlo)
  · exact (heptane_strictMonoOn.lt_iff_lt hmem hhimem).1 (by simpa [hval] using hhi)

/-- Raising the heptane fraction strictly lowers the bubble-point
temperature: the residual at the old root becomes positive, and the residual
is strictly increasing in `T`. -/
lemma bubble_point_temp_strict_anti {x y : ℝ} (hx0 : 0 ≤ x) (hy1 : y ≤ 1)
    (hxy : x < y) : bubble_point_temp y < bubble_point_temp x := by
  have hx1 : x ≤ 1 := le_of_lt (lt_of_lt_of_le hxy hy1)
  have hy0 : 0 ≤ y := le_trans hx0 hxy.le
  obtain ⟨hxmem, hxroot⟩ := bubble_point_temp_spec hx0 hx1
  obtain ⟨hymem, hyroot⟩ := bubble_point_temp_spec hy0 hy1
  have hPh := octane_lt_heptane hxmem
  have hexpand : func y (bubble_point_temp x)
      = func x (bubble_point_temp x)
        + (y - x) * (antoine_eq (bubble_point_temp x) heptane.A heptane.B heptane.C
          - antoine_eq (bubble_point_temp x) octane.A octane.B octane.C) := by
    simp only [func]
    ring
  have hpos : 0 < func y (bubble_point_temp x) := by
    rw [hexpand, hxroot]
    have := sub_pos.2 hPh
    nlinarith
  have := (func_strictMonoOn hy0 hy1).lt_iff_lt hymem hxmem
  rw [← this]
  rw [hyroot]
  exact hpos

/-- At the solved bubble point the heptane saturation pressure is at least
the total pressure (equality only possible at `x = 1`). -/
lemma heptane_pressure_at_root_ge {x : ℝ} (h0 : 0 ≤ x) (h1 : x ≤ 1) :
    P_total ≤ antoine_eq (bubble_point_temp x) heptane.A heptane.B heptane.C := by
  obtain ⟨hmem, hroot⟩ := bubble_point_temp_spec h0 h1
  have hPh := octane_lt_heptane hmem
  simp only [func] at hroot
  nlinarith

/-- For `x < 1` the heptane saturation pressure at the solved bubble point
strictly exceeds the total pressure. -/
lemma heptane_pressure_at_root_gt {x : ℝ} (h0 : 0 ≤ x) (h1 : x < 1) :
    P_total < antoine_eq (bubble_point_temp x) heptane.A heptane.B heptane.C := by
  obtain ⟨hmem, hroot⟩ := bubble_point_temp_spec h0 h1.le
  have hPh := octane_lt_heptane hmem
  simp only [func] at hroot
  nlinarith

/-- The concrete sweep is the generalized sweep at the reference
configuration. -/
lemma sweepRows_eq_sweepGen (solveT : ℝ → ℝ) :
    sweepRows solveT = sweepGen heptane P_total x_vals solveT := rfl

/-- Every sweep sample lies in `[0, 1]`. -/
lemma x_vals_mem_Icc {x : ℝ} (hx : x ∈ x_vals) : 0 ≤ x ∧ x ≤ 1 := by
  simp only [x_vals, List.mem_map, List.mem_range] at hx
  obtain ⟨i, hi, rfl⟩ := hx
  have hi20 : (i : ℝ) ≤ 20 := by
    have h : i ≤ 20 := by omega
    exact_mod_cast h
  constructor
  · exact div_nonneg (Nat.cast_nonneg i) (by norm_num)
  · rw [div_le_one (by norm_num)]
    exact hi20

/-- Shape of an arbitrary row of `results`. -/
lemma results_row {r : ℝ × ℝ × ℝ} (hr : r ∈ results) :
    ∃ x ∈ x_vals, r = (x, vapor_y x, bubble_point_temp x) := by
  simp only [results, sweepRows, List.mem_map] at hr
  obtain ⟨x, hx, hxr⟩ := hr
  exact ⟨x, hx, hxr.symm⟩

/-- `0` is a sweep sample. -/
lemma zero_mem_x_vals : (0 : ℝ) ∈ x_vals := by
  rw [x_vals]
  exact List.mem_map.mpr ⟨0, by simp, by norm_num⟩

/-- `1` is a sweep sample. -/
lemma one_mem_x_vals : (1 : ℝ) ∈ x_vals := by
  rw [x_vals]
  exact List.mem_map.mpr ⟨20, by simp, by norm_num⟩

/-- The row at sample `0` belongs to the result table. -/
lemma row_zero_mem_results :
    ((0 : ℝ), vapor_y 0, bubble_point_temp 0) ∈ results :=
  List.mem_map.mpr ⟨0, zero_mem_x_vals, rfl⟩

/-- The row at sample `1` belongs to the result table. -/
lemma row_one_mem_results :
    ((1 : ℝ), vapor_y 1, bubble_point_temp 1) ∈ results :=
  List.mem_map.mpr ⟨1, one_mem_x_vals, rfl⟩

/-- The heptane saturation pressure at `200` °C exceeds 1000 mmHg. -/
lemma thousand_lt_heptane_at_200 :
    1000 < antoine_eq 200 heptane.A heptane.B heptane.C := by
  have hexp : (3 : ℝ) < heptane.A - heptane.B / (heptane.C + 200) := by
    norm_num [heptane]
  calc (1000 : ℝ) = (10 : ℝ) ^ (3 : ℝ) := ten_rpow_three.symm
    _ < antoine_eq 200 heptane.A heptane.B heptane.C := ten_rpow_lt_ten_rpow hexp

/-- Every sample's derived vapor fraction dominates the liquid fraction. -/
lemma x_le_vapor_y {x : ℝ} (h0 : 0 ≤ x) (h1 : x ≤ 1) : x ≤ vapor_y x := by
  have hPh := heptane_pressure_at_root_ge h0 h1
  rw [vapor_y]
  rw [le_div_iff₀ (by norm_num [P_total] : (0 : ℝ) < P_total)]
  exact mul_le_mul_of_nonneg_left hPh h0

/-- The derived vapor fraction at a pure-octane feed is zero. -/
lemma vapor_y_zero : vapor_y 0 = 0 := by
  simp [vapor_y]

/-- The derived vapor fraction at a pure-heptane feed is one. -/
lemma vapor_y_one : vapor_y 1 = 1 := by
  obtain ⟨hmem, hroot⟩ := bubble_point_temp_spec (by norm_num : (0:ℝ) ≤ 1) (le_refl 1)
  rw [func_at_x_one] at hroot
  have hval : antoine_eq (bubble_point_temp 1) heptane.A heptane.B heptane.C
      = P_total := by linarith
  rw [vapor_y, hval]
  simp [P_total]

/-- Claim C1: for every liquid mole fraction in `[0, 1]` the temperature
returned by the bubble-point solver zeroes the pressure-balance residual
(hence lies within the 1e-6 mmHg tolerance), and recomputing the residual at
the stored `(x, T)` of every row of the result table stays within that
tolerance of zero. -/
theorem claim_C1_residual_zero :
    (∀ x : ℝ, 0 ≤ x → x ≤ 1 → |func x (bubble_point_temp x)| ≤ 1e-6) ∧
    ∀ r ∈ results, |func r.1 r.2.2| ≤ 1e-6 := by
  constructor
  · intro x h0 h1
    rw [(bubble_point_temp_spec h0 h1).2]
    norm_num
  · intro r hr
    obtain ⟨x, hx, rfl⟩ := results_row hr
    obtain ⟨h0, h1⟩ := x_vals_mem_Icc hx
    rw [(bubble_point_temp_spec h0 h1).2]
    norm_num

/-- Concrete instance of claim C1 at the endpoint samples. -/
theorem claim_C1_witness :
    |func 0 (bubble_point_temp 0)| ≤ 1e-6 ∧ |func 1 (bubble_point_temp 1)| ≤ 1e-6 :=
  ⟨claim_C1_residual_zero.1 0 (le_refl 0) (by norm_num),
   claim_C1_residual_zero.1 1 (by norm_num) (le_refl 1)⟩

/-- Claim C2 as stated is false: at `x1 = 0` the solved temperature — which
does satisfy the pure-octane balance `Psat_octane(T) = 760` — is below
`118.4` °C, more than 6 °C away from the claimed `125.6` °C. -/
theorem claim_C2_counterexample :
    antoine_eq (bubble_point_temp 0) octane.A octane.B octane.C = P_total ∧
    6 < |bubble_point_temp 0 - 125.6| := by
  obtain ⟨hmem, hroot⟩ := bubble_point_temp_spec (le_refl (0 : ℝ)) (by norm_num)
  rw [func_at_x_zero] at hroot
  obtain ⟨hlo, hhi⟩ := bubble_point_temp_zero_bounds
  constructor
  · linarith
  · have habs : |bubble_point_temp 0 - 125.6| = -(bubble_point_temp 0 - 125.6) :=
      abs_of_neg (by linarith)
    rw [habs]
    linarith

/-- Claim C2, amended to the temperatures the given constants actually
produce: at `x1 = 0` the solver yields `T ≈ 118.3` °C (between `118.25` and
`118.4`, the root of `Psat_octane(T) = 760` for these constants) with
`y = 0`; at `x1 = 1` it yields `T ≈ 98.0` °C (between `97.95` and `98.1`)
with `y = 1`; at `x1 = 0.5` the temperature lies strictly between those two
and `y` strictly exceeds `0.5`. -/
theorem claim_C2_amended :
    (118.25 < bubble_point_temp 0 ∧ bubble_point_temp 0 < 118.4) ∧
    vapor_y 0 = 0 ∧
    (97.95 < bubble_point_temp 1 ∧ bubble_point_temp 1 < 98.1) ∧
    vapor_y 1 = 1 ∧
    bubble_point_temp 1 < bubble_point_temp 0.5 ∧
    bubble_point_temp 0.5 < bubble_point_temp 0 ∧
    0.5 < vapor_y 0.5 := by
  refine ⟨bubble_point_temp_zero_bounds, vapor_y_zero,
    bubble_point_temp_one_bounds, vapor_y_one, ?_, ?_, ?_⟩
  · exact bubble_point_temp_strict_anti (by norm_num) (le_refl 1) (by norm_num)
  · exact bubble_point_temp_strict_anti (le_refl 0) (by norm_num) (by norm_num)
  · have hPh := heptane_pressure_at_root_gt (by norm_num : (0:ℝ) ≤ 0.5)
      (by norm_num : (0.5:ℝ) < 1)
    rw [vapor_y, lt_div_iff₀ (by norm_num [P_total] : (0:ℝ) < P_total)]
    simp only [P_total] at *
    linarith

/-- Claim C3: the saturation-pressure function returns exactly
`10 ^ (A - B / (C + T))`. -/
theorem claim_C3_antoine_contract :
    ∀ T A B C : ℝ, antoine_eq T A B C = (10 : ℝ) ^ (A - B / (C + T)) :=
  fun _ _ _ _ => rfl

/-- Claim C4: along the sweep, the solved bubble-point temperature is
non-increasing in the heptane liquid fraction: any two result rows with
`x_i ≤ x_j` have `T(x_i) ≥ T(x_j)`. -/
theorem claim_C4_temp_monotone :
    ∀ r ∈ results, ∀ s ∈ results, r.1 ≤ s.1 → s.2.2 ≤ r.2.2 := by
  intro r hr s hs hle
  obtain ⟨x, hx, rfl⟩ := results_row hr
  obtain ⟨y, hy, rfl⟩ := results_row hs
  obtain ⟨hx0, hx1⟩ := x_vals_mem_Icc hx
  obtain ⟨hy0, hy1⟩ := x_vals_mem_Icc hy
  simp only at hle
  rcases eq_or_lt_of_le hle with heq | hlt
  · simp [heq]
  · exact (bubble_point_temp_strict_anti hx0 hy1 hlt).le

/-- Instance of claim C4 at the endpoint rows: the pure-heptane bubble point
is no hotter than the pure-octane one. -/
theorem claim_C4_witness : bubble_point_temp 1 ≤ bubble_point_temp 0 :=
  claim_C4_temp_monotone _ row_zero_mem_results _ row_one_mem_results
    (by norm_num)

/-- Claim C5: for every row of the result table the derived vapor fraction
dominates the liquid fraction, `y ≥ x`. -/
theorem claim_C5_vapor_enriched : ∀ r ∈ results, r.1 ≤ r.2.1 := by
  intro r hr
  obtain ⟨x, hx, rfl⟩ := results_row hr
  obtain ⟨h0, h1⟩ := x_vals_mem_Icc hx
  exact x_le_vapor_y h0 h1

/-- Instance of claim C5 at the `x = 0` row. -/
theorem claim_C5_witness : (0 : ℝ) ≤ vapor_y 0 :=
  claim_C5_vapor_enriched _ row_zero_mem_results

/-- Claim C6: each stored row's vapor fraction equals
`x * Psat_heptane(T) / P_total` with the saturation pressure recomputed by
`antoine_eq` at the row's stored converged temperature. -/
theorem claim_C6_y_recomputed :
    ∀ r ∈ results,
      r.2.1 = r.1 * antoine_eq r.2.2 heptane.A heptane.B heptane.C / P_total ∧
      r.2.2 = bubble_point_temp r.1 := by
  intro r hr
  obtain ⟨x, hx, rfl⟩ := results_row hr
  exact ⟨rfl, rfl⟩

/-- Instance of claim C6 at the `x = 1` row. -/
theorem claim_C6_witness :
    vapor_y 1 = 1 * antoine_eq (bubble_point_temp 1) heptane.A heptane.B heptane.C
      / P_total :=
  (claim_C6_y_recomputed _ row_one_mem_results).1

/-- Claim C7: the sweep iterates over exactly the 21 evenly spaced samples
`0, 0.05, ..., 1` — both endpoints included, strictly ascending, no
duplicates — and the result table has one row per sample in the same
ascending-`x` order. -/
theorem claim_C7_sample_grid :
    x_vals = [0, 0.05, 0.1, 0.15, 0.2, 0.25, 0.3, 0.35, 0.4, 0.45, 0.5,
      0.55, 0.6, 0.65, 0.7, 0.75, 0.8, 0.85, 0.9, 0.95, 1] ∧
    x_vals.length = 21 ∧
    List.Pairwise (· < ·) x_vals ∧
    results.map Prod.fst = x_vals ∧
    results.length = 21 := by
  refine ⟨?_, ?_, ?_, ?_, ?_⟩
  · rw [x_vals, show List.range 21 = [0, 1, 2, 3, 4, 5, 6, 7, 8, 9, 10, 11, 12,
      13, 14, 15, 16, 17, 18, 19, 20] from rfl]
    simp only [List.map_cons, List.map_nil]
    norm_num
  · simp [x_vals]
  · rw [x_vals, List.pairwise_map]
    refine (List.pairwise_lt_range 21).imp ?_
    intro i j hij
    have h : (i : ℝ) < j := by exact_mod_cast hij
    linarith
  · simp only [results, sweepRows, List.map_map]
    exact List.map_id' x_vals
  · simp [results, sweepRows, x_vals]

/-- Claim C8 as stated is false: the saturation-pressure function does have
a failure mode.  At the real temperature `T = -216` with the positive
heptane constants, `B / (C + T)` divides by zero — the source raises
`ZeroDivisionError` — so no strictly positive value is returned there. -/
theorem claim_C8_counterexample :
    antoine_eq_checked (-216) 6.893 1260 216 = none := by
  simp only [antoine_eq_checked]
  rw [if_pos (by norm_num : (216 : ℝ) + (-216 : ℝ) = 0)]

/-- Claim C8, amended to exclude the division singularity: for every real
temperature with `C + T ≠ 0` and positive constants, the saturation-pressure
function fails in no way and returns a strictly positive real — the value
`antoine_eq` computes. -/
theorem claim_C8_psat_positive_amended :
    ∀ T A B C : ℝ, 0 < A → 0 < B → 0 < C → C + T ≠ 0 →
      ∃ P, antoine_eq_checked T A B C = some P ∧ 0 < P ∧ P = antoine_eq T A B C := by
  intro T A B C hA hB hC hCT
  refine ⟨antoine_eq T A B C, ?_, antoine_eq_pos T A B C, rfl⟩
  simp only [antoine_eq_checked]
  rw [if_neg hCT]
  rfl

/-- Instance of amended claim C8 at a physically implausible temperature and
the heptane constants. -/
theorem claim_C8_witness :
    ∃ P, antoine_eq_checked (-273.15) 6.893 1260 216 = some P ∧ 0 < P ∧
      P = antoine_eq (-273.15) 6.893 1260 216 :=
  claim_C8_psat_positive_amended (-273.15) 6.893 1260 216 (by norm_num)
    (by norm_num) (by norm_num) (by norm_num)

/-- Claim C9: the sweep applies no validation to the solver output: whatever
temperature function stands in for the root-finder, the sweep appends one
row per sample — always a full 21-row table in sample order — and in
particular a solver output making the derived `y` exceed `1` still yields
its row. -/
theorem claim_C9_no_validation :
    (∀ solveT : ℝ → ℝ, (sweepRows solveT).length = 21 ∧
      (sweepRows solveT).map Prod.fst = x_vals) ∧
    ∃ r ∈ sweepRows (fun _ => 200), 1 < r.2.1 := by
  constructor
  · intro solveT
    constructor
    · simp [sweepRows, x_vals]
    · simp only [sweepRows, List.map_map]
      exact List.map_id' x_vals
  · refine ⟨(1, 1 * antoine_eq 200 heptane.A heptane.B heptane.C / P_total, 200),
      List.mem_map.mpr ⟨1, one_mem_x_vals, rfl⟩, ?_⟩
    have h := thousand_lt_heptane_at_200
    simp only [P_total]
    rw [lt_div_iff₀ (by norm_num : (0:ℝ) < 760)]
    linarith

/-- Claim C10: the sweep is a pure function of the correlation constants, the
total pressure, the sample sequence and the solver they determine — equal
inputs give identical output tables. -/
theorem claim_C10_deterministic (hep1 hep2 : AntoineConstants) (P1 P2 : ℝ)
    (s1 s2 : List ℝ) (f1 f2 : ℝ → ℝ) (hhep : hep1 = hep2) (hP : P1 = P2)
    (hs : s1 = s2) (hf : f1 = f2) :
    sweepGen hep1 P1 s1 f1 = sweepGen hep2 P2 s2 f2 := by
  rw [hhep, hP, hs, hf]

/-- Instance of claim C10 at the reference configuration. -/
theorem claim_C10_witness :
    sweepGen heptane P_total x_vals bubble_point_temp
      = sweepGen heptane P_total x_vals bubble_point_temp :=
  claim_C10_deterministic heptane heptane P_total P_total x_vals x_vals
    bubble_point_temp bubble_point_temp rfl rfl rfl rfl
